import Mathlib

/-!
Verification of the TrueOrScam detection service (src/index.js).

The development shallowly embeds the Gemini call wrapper `geminiCallJSON`
(retry with backoff, mock fallback), the deterministic mock policy
`mockFromPrompt`, and the URL-detection response construction
(`detectByUrl` and the `/api/detect` URL branch, including the expiring
cache).  Upstream HTTP attempts are supplied by an oracle: each attempt
either yields a response (status plus body text) or throws (transport
error).  All functions are executable.
-/

set_option maxHeartbeats 1000000
set_option maxRecDepth 8000

/-- Opening curly brace character (written via its code point throughout). -/
def lbrace : Char := '\x7b'

/-- Closing curly brace character. -/
def rbrace : Char := '\x7d'

/-- JSON values as produced by `JSON.parse`.  Number literals are kept
verbatim as their source token (the engine never does arithmetic on them;
JavaScript float canonicalisation is outside the model). -/
inductive Json where
  | jnull : Json
  | jbool : Bool → Json
  | jnum : String → Json
  | jstr : String → Json
  | jarr : List Json → Json
  | jobj : List (String × Json) → Json

/-- Whitespace characters accepted between JSON tokens. -/
def isJsonWs (c : Char) : Bool :=
  c = ' ' || c = '\t' || c = '\n' || c = '\r'

/-- Skip insignificant whitespace. -/
def skipWs (l : List Char) : List Char := l.dropWhile isJsonWs

/-- Decimal digit test. -/
def isDigitCh (c : Char) : Bool := '0' ≤ c && c ≤ '9'

/-- Hexadecimal digit value, if any. -/
def hexVal (c : Char) : Option Nat :=
  if '0' ≤ c ∧ c ≤ '9' then some (c.toNat - '0'.toNat)
  else if 'a' ≤ c ∧ c ≤ 'f' then some (c.toNat - 'a'.toNat + 10)
  else if 'A' ≤ c ∧ c ≤ 'F' then some (c.toNat - 'A'.toNat + 10)
  else none

/-- Body of a JSON string literal: characters after the opening quote,
accumulated in reverse; stops at the closing quote.  Raw control
characters are rejected, escapes are decoded (surrogate pairing of
adjacent `\uXXXX` escapes is outside the model; a lone escape maps to a
single code point). -/
def parseStringBody : List Char → List Char → Option (String × List Char)
  | _, [] => none
  | acc, '\\' :: 'u' :: h1 :: h2 :: h3 :: h4 :: rest =>
    match hexVal h1, hexVal h2, hexVal h3, hexVal h4 with
    | some a, some b, some c, some d =>
      parseStringBody (Char.ofNat (((a * 16 + b) * 16 + c) * 16 + d) :: acc) rest
    | _, _, _, _ => none
  | acc, '\\' :: e :: rest =>
    if e = '"' then parseStringBody ('"' :: acc) rest
    else if e = '\\' then parseStringBody ('\\' :: acc) rest
    else if e = '/' then parseStringBody ('/' :: acc) rest
    else if e = 'b' then parseStringBody (Char.ofNat 8 :: acc) rest
    else if e = 'f' then parseStringBody (Char.ofNat 12 :: acc) rest
    else if e = 'n' then parseStringBody ('\n' :: acc) rest
    else if e = 'r' then parseStringBody ('\r' :: acc) rest
    else if e = 't' then parseStringBody ('\t' :: acc) rest
    else none
  | acc, c :: rest =>
    if c = '"' then some (String.mk acc.reverse, rest)
    else if c.toNat < 32 then none
    else parseStringBody (c :: acc) rest

/-- Number literal per the JSON grammar; returns the token and the rest. -/
def parseNumberTok (l : List Char) : Option (String × List Char) :=
  let (sign, l1) : List Char × List Char :=
    match l with
    | '-' :: r => (['-'], r)
    | _ => ([], l)
  match l1 with
  | [] => none
  | c :: r =>
    if c = '0' then
      afterInt (sign ++ ['0']) r
    else if isDigitCh c then
      let ds := r.takeWhile isDigitCh
      afterInt (sign ++ (c :: ds)) (r.dropWhile isDigitCh)
    else none
where
  /-- Optional fraction and exponent after the integer part. -/
  afterInt (tok : List Char) (l : List Char) : Option (String × List Char) :=
    let (tok1, l1) : List Char × List Char :=
      match l with
      | '.' :: r =>
        let ds := r.takeWhile isDigitCh
        if ds.isEmpty then ([], []) else (tok ++ ('.' :: ds), r.dropWhile isDigitCh)
      | _ => (tok, l)
    if tok1.isEmpty then none
    else
      match l1 with
      | 'e' :: r => afterExp tok1 'e' r
      | 'E' :: r => afterExp tok1 'E' r
      | _ => some (String.mk tok1, l1)
  /-- Exponent part. -/
  afterExp (tok : List Char) (e : Char) (l : List Char) : Option (String × List Char) :=
    let (sgn, l1) : List Char × List Char :=
      match l with
      | '+' :: r => (['+'], r)
      | '-' :: r => (['-'], r)
      | _ => ([], l)
    let ds := l1.takeWhile isDigitCh
    if ds.isEmpty then none
    else some (String.mk (tok ++ (e :: sgn) ++ ds), l1.dropWhile isDigitCh)

mutual

/-- Parse one JSON value (after skipping whitespace); fuel bounds the
recursion depth and is always supplied large enough by `jsonParseL`. -/
def parseValue : Nat → List Char → Option (Json × List Char)
  | 0, _ => none
  | fuel + 1, l =>
    match skipWs l with
    | [] => none
    | c :: rest =>
      if c = lbrace then
        match skipWs rest with
        | [] => none
        | c2 :: r2 =>
          if c2 = rbrace then some (.jobj [], r2)
          else parseMembers fuel (c2 :: r2) []
      else if c = '[' then
        match skipWs rest with
        | [] => none
        | c2 :: r2 =>
          if c2 = ']' then some (.jarr [], r2)
          else parseElems fuel (c2 :: r2) []
      else if c = '"' then
        (parseStringBody [] rest).map (fun p => (.jstr p.1, p.2))
      else
        match c :: rest with
        | 't' :: 'r' :: 'u' :: 'e' :: r => some (.jbool true, r)
        | 'f' :: 'a' :: 'l' :: 's' :: 'e' :: r => some (.jbool false, r)
        | 'n' :: 'u' :: 'l' :: 'l' :: r => some (.jnull, r)
        | l2 => (parseNumberTok l2).map (fun p => (.jnum p.1, p.2))

/-- Members of an object after the opening brace (object known nonempty). -/
def parseMembers : Nat → List Char → List (String × Json) → Option (Json × List Char)
  | 0, _, _ => none
  | fuel + 1, l, acc =>
    match skipWs l with
    | [] => none
    | c :: rest =>
      if c = '"' then
        match parseStringBody [] rest with
        | none => none
        | some (k, r1) =>
          match skipWs r1 with
          | ':' :: r2 =>
            match parseValue fuel r2 with
            | none => none
            | some (v, r3) =>
              match skipWs r3 with
              | [] => none
              | c2 :: r4 =>
                if c2 = ',' then parseMembers fuel r4 (acc ++ [(k, v)])
                else if c2 = rbrace then some (.jobj (acc ++ [(k, v)]), r4)
                else none
          | _ => none
      else none

/-- Elements of an array after the opening bracket (array known nonempty). -/
def parseElems : Nat → List Char → List Json → Option (Json × List Char)
  | 0, _, _ => none
  | fuel + 1, l, acc =>
    match parseValue fuel l with
    | none => none
    | some (v, r1) =>
      match skipWs r1 with
      | ',' :: r2 => parseElems fuel r2 (acc ++ [v])
      | ']' :: r2 => some (.jarr (acc ++ [v]), r2)
      | _ => none

end

/-- Model of `JSON.parse`: the whole input must be one JSON value
surrounded only by whitespace.  The fuel `2·|l| + 2` dominates the
recursion depth of any input of this length. -/
def jsonParseL (l : List Char) : Option Json :=
  match parseValue (2 * l.length + 2) l with
  | some (v, rest) => if (skipWs rest).isEmpty then some v else none
  | none => none

/-- Model of `JSON.parse` on a `String`. -/
def jsonParseStr (s : String) : Option Json := jsonParseL s.data

/-- Property access `obj[k]`.  `JSON.parse` keeps the last duplicate key,
so lookup scans from the right. -/
def objGet (j : Json) (k : String) : Option Json :=
  match j with
  | .jobj fs =>
    match fs.reverse.find? (fun p => p.1 == k) with
    | some p => some p.2
    | none => none
  | _ => none

/-- Index access `v?.[i]` under JavaScript semantics: arrays index their
elements, objects convert the index to a string key, strings index their
characters; other primitives yield `undefined`. -/
def jsIndex (j : Json) (i : Nat) : Option Json :=
  match j with
  | .jarr xs => xs.get? i
  | .jobj _ => objGet j (toString i)
  | .jstr s => (s.data.get? i).map (fun c => .jstr (String.mk [c]))
  | _ => none

/-- Zero test on a number token (the exponent never changes zeroness). -/
def numTokenIsZero (tok : List Char) : Bool :=
  (tok.takeWhile (fun c => c ≠ 'e' ∧ c ≠ 'E')).all
    (fun c => c = '0' || c = '-' || c = '.')

/-- JavaScript truthiness of a parsed JSON value. -/
def jsTruthy : Json → Bool
  | .jnull => false
  | .jbool b => b
  | .jnum t => !(numTokenIsZero t.data)
  | .jstr s => !(s == "")
  | .jarr _ => true
  | .jobj _ => true

mutual

/-- JavaScript string coercion of a parsed JSON value, as used by template
interpolation.  Numbers keep their source token (JavaScript re-formats
floats, which is outside the model and unreachable from every claim). -/
def jsToString : Json → String
  | .jnull => "null"
  | .jbool b => if b then "true" else "false"
  | .jnum t => t
  | .jstr s => s
  | .jarr xs => String.intercalate "," (jsToStringArr xs)
  | .jobj _ => "[object Object]"

/-- Elements under `Array.prototype.join`: `null` renders as empty. -/
def jsToStringArr : List Json → List String
  | [] => []
  | .jnull :: rest => "" :: jsToStringArr rest
  | v :: rest => jsToString v :: jsToStringArr rest

end

/-- Naive substring test on character lists: does `pat` occur contiguously
in the second argument?  Models `String.prototype.includes` for the
nonempty literal keywords used by the mock policy. -/
def containsSub (pat : List Char) : List Char → Bool
  | [] => pat.isEmpty
  | c :: rest => pat.isPrefixOf (c :: rest) || containsSub pat rest

/-- Lowercasing as done by `toLowerCase` (per-character; the keyword
alphabet is ASCII, where the two coincide). -/
def lowerChars (s : String) : List Char := s.data.map Char.toLower

/-- Keyword test of the mock policy: `p.includes(kw)` on the lowercased
prompt. -/
def promptHas (kw : String) (prompt : String) : Bool :=
  containsSub kw.data (lowerChars prompt)

/-- Canned claim/headline-verification verdict returned by the mock policy
(src/index.js lines 266-281). -/
def mockClaimShape : Json :=
  .jobj [("verdict", .jstr "unverified"),
         ("checks", .jarr
           [.jobj [("step", .jstr "Find primary source"),
                   ("why", .jstr "Confirm original speaker/publication")],
            .jobj [("step", .jstr "Check date/location"),
                   ("why", .jstr "Spot recycled or out-of-context claims")]]),
         ("what_to_collect", .jarr
           [.jstr "source URL", .jstr "publication date", .jstr "speaker identity"]),
         ("advice", .jstr "Cross-check with at least two reputable outlets.")]

/-- Canned video-risk verdict (src/index.js lines 282-288). -/
def mockVideoShape : Json :=
  .jobj [("risk", .jstr "suspicious"),
         ("signals", .jarr [.jstr "Clickbait title pattern", .jstr "Unknown channel"]),
         ("advice", .jstr "Verify channel history and corroborating sources.")]

/-- Canned image-analysis verdict (src/index.js lines 289-295). -/
def mockImageShape : Json :=
  .jobj [("verdict", .jstr "uncertain"),
         ("indicators", .jarr [.jstr "No EXIF metadata", .jstr "Slight edge artifacts"]),
         ("advice", .jstr "Seek original upload; reverse image search.")]

/-- Canned generic link-risk verdict (src/index.js lines 296-300). -/
def mockLinkShape : Json :=
  .jobj [("risk", .jstr "suspicious"),
         ("signals", .jarr [.jstr "Obscure domain TLD"]),
         ("advice", .jstr "Avoid entering credentials or payment details.")]

/-- Deterministic mock policy `mockFromPrompt` (src/index.js lines
263-301): keyword dispatch over the lowercased prompt. -/
def mockFromPrompt (prompt : String) : Json :=
  if promptHas "verify this claim" prompt || promptHas "headline" prompt then
    mockClaimShape
  else if promptHas "video url" prompt then mockVideoShape
  else if promptHas "image" prompt then mockImageShape
  else mockLinkShape

/-- One part of an inference request: an optional text segment and
optional inline image data (mime type, base64 payload).  Only the text is
read by the wrapper itself. -/
structure ReqPart where
  text : Option String
  inlineData : Option (String × String)

/-- A text-only part. -/
def textPart (s : String) : ReqPart := ⟨some s, none⟩

/-- Concatenated prompt text `parts.map(p => p.text).join("\n")`
(`undefined` renders as the empty string under `join`; the trailing
`|| ""` of the source is the identity on the resulting string). -/
def joinedText (parts : List ReqPart) : String :=
  String.intercalate "\n" (parts.map (fun p => p.text.getD ""))

/-- Mock-mode test `!GEMINI_KEY || GEMINI_KEY === "MOCK"`: no credential,
the empty (falsy) credential, or the sentinel. -/
def mockMode : Option String → Bool
  | none => true
  | some s => s == "" || s == "MOCK"

/-- Result of one upstream attempt, supplied by an oracle: either
`fetch` and `resp.text()` completed with a status and body text, or the
attempt threw (timeout, connection error). -/
inductive AttemptResult where
  | response : Nat → String → AttemptResult
  | throw : String → AttemptResult

/-- Observable event of the wrapper: a network call, or a backoff sleep of
the given number of milliseconds. -/
inductive Ev where
  | call : Ev
  | sleep : Nat → Ev
deriving DecidableEq, Repr

/-- Number of upstream attempts recorded in a trace. -/
def countCalls (evs : List Ev) : Nat :=
  (evs.filter (fun e => match e with | .call => true | _ => false)).length

/-- Backoff delays recorded in a trace, in order. -/
def delays (evs : List Ev) : List Nat :=
  evs.filterMap (fun e => match e with | .sleep ms => some ms | _ => none)

/-- Outcome of the wrapper, one constructor per return site of
`geminiCallJSON`: a parsed verdict, a mock verdict with its tag
(`_mock: true` or `_fallback: reason`), or a hard error object
(`_error` message with optional `raw` text). -/
inductive Outcome where
  | verdict : Json → Outcome
  | mockNoKey : Json → Outcome
  | mockFallback : String → Json → Outcome
  | hardError : String → Option String → Outcome

/-- First-brace-to-last-brace extraction, the model of
`text.match(/\x7b[\s\S]*\x7d/)`: the greedy match spans from the first
opening brace to the last closing brace, if such a span exists. -/
def extractBraces (l : List Char) : Option (List Char) :=
  let suf := l.dropWhile (fun c => c ≠ lbrace)
  let rev := suf.reverse.dropWhile (fun c => c ≠ rbrace)
  if suf.isEmpty then none
  else if rev.isEmpty then none
  else some rev.reverse

/-- Tail of the success path (src/index.js lines 344-352): extract the
brace span from the model text, try to parse it, and degrade to the
bad-JSON hard error carrying the raw text. -/
def finishText (text : String) : Outcome :=
  match extractBraces text.data with
  | some s =>
    match jsonParseL s with
    | some v => .verdict v
    | none => .hardError "Bad/empty JSON from Gemini" (some text)
  | none => .hardError "Bad/empty JSON from Gemini" (some text)

/-- Error message for a non-ok upstream status:
`data?.error?.message || bodyText || "unknown"` where `data` is the body
parsed as JSON (or `\x7b\x7d` when unparseable). -/
def upstreamErrMsg (body : String) : String :=
  let data := (jsonParseStr body).getD (.jobj [])
  match (objGet data "error").bind (fun e => objGet e "message") with
  | some m => if jsTruthy m then jsToString m else (if body == "" then "unknown" else body)
  | none => if body == "" then "unknown" else body

/-- Candidate text lookup
`data.candidates?.[0]?.content?.parts?.[0]?.text` on the parsed body. -/
def candidateVal (body : String) : Option Json :=
  let data := (jsonParseStr body).getD (.jobj [])
  ((((objGet data "candidates").bind (fun c => jsIndex c 0)).bind
      (fun x => objGet x "content")).bind
      (fun ct => objGet ct "parts")).bind
      (fun ps => jsIndex ps 0) |>.bind (fun pp => objGet pp "text")

/-- Decision of one iteration body before the catch handler. -/
inductive TryResult where
  | overloaded : TryResult
  | finished : Outcome → TryResult

/-- Body of the `try` block for one responded attempt (src/index.js lines
320-352): 503 signals overload; any other non-2xx status returns the hard
error; a 2xx response reads the candidate text (a truthy non-string there
makes `text.match` throw a TypeError, modelled as `Except.error`) and runs
the extraction. -/
def tryBody (status : Nat) (body : String) : Except String TryResult :=
  if status == 503 then .ok .overloaded
  else if !(200 ≤ status && status < 300) then
    .ok (.finished (.hardError
      ("Gemini error " ++ toString status ++ ": " ++ upstreamErrMsg body) none))
  else
    match candidateVal body with
    | some v =>
      if jsTruthy v then
        match v with
        | .jstr s => .ok (.finished (finishText s))
        | _ => .error "TypeError: text.match is not a function"
      else .ok (.finished (finishText ""))
    | none => .ok (.finished (finishText ""))

/-- Retry loop of `geminiCallJSON` (src/index.js lines 312-365).
`remaining` is `retries - i`; the loop-exhausted case is the
`_fallback: "unknown"` return after the loop.  On overload with attempts
remaining it sleeps `(i+1)*1000` ms; on a thrown attempt with attempts
remaining it sleeps 500 ms; exhaustion yields the mock verdict tagged
`gemini_503` or `network_error` respectively. -/
def geminiLoop (parts : List ReqPart) (oracle : Nat → AttemptResult) :
    Nat → Nat → Outcome × List Ev
  | 0, _ => (.mockFallback "unknown" (mockFromPrompt (joinedText parts)), [])
  | remaining + 1, i =>
    let att : Except String TryResult :=
      match oracle i with
      | .throw e => .error e
      | .response st body => tryBody st body
    match att with
    | .ok .overloaded =>
      if remaining > 0 then
        let next := geminiLoop parts oracle remaining (i + 1)
        (next.1, .call :: .sleep ((i + 1) * 1000) :: next.2)
      else
        (.mockFallback "gemini_503" (mockFromPrompt (joinedText parts)), [.call])
    | .ok (.finished o) => (o, [.call])
    | .error _ =>
      if remaining > 0 then
        let next := geminiLoop parts oracle remaining (i + 1)
        (next.1, .call :: .sleep 500 :: next.2)
      else
        (.mockFallback "network_error" (mockFromPrompt (joinedText parts)), [.call])

/-- The wrapper `geminiCallJSON` (src/index.js lines 303-366): immediate
mock in mock mode, otherwise the retry loop, together with the trace of
network calls and sleeps. -/
def geminiCallJSON (key : Option String) (parts : List ReqPart) (retries : Nat)
    (oracle : Nat → AttemptResult) : Outcome × List Ev :=
  if mockMode key then
    (.mockNoKey (mockFromPrompt (joinedText parts)), [])
  else geminiLoop parts oracle retries 0

/-- JavaScript object view of an outcome, one case per return-site object
of `geminiCallJSON`.  The spread `\x7b...mock, tag\x7d` appends the tag
key; the mock shapes are objects and never contain the tag keys, and
`objGet` reads rightmost-first, matching JavaScript override order. -/
def Outcome.toJson : Outcome → Json
  | .verdict v => v
  | .mockNoKey v =>
    match v with
    | .jobj fs => .jobj (fs ++ [("_mock", .jbool true)])
    | _ => .jobj [("_mock", .jbool true)]
  | .mockFallback r v =>
    match v with
    | .jobj fs => .jobj (fs ++ [("_fallback", .jstr r)])
    | _ => .jobj [("_fallback", .jstr r)]
  | .hardError m raw =>
    match raw with
    | some t => .jobj [("_error", .jstr m), ("raw", .jstr t)]
    | none => .jobj [("_error", .jstr m)]

/-- Truthy-or-default `a || d` on an optional property value, as in
`ai?.risk || "clear"`. -/
def jsOr (o : Option Json) (d : Json) : Json :=
  match o with
  | some v => if jsTruthy v then v else d
  | none => d

/-- Image-URL sniff, model of the case-insensitive test
`/\.(png|jpe?g|gif|webp|bmp|tiff?)(\?|#|$)/i`. -/
def isLikelyImageUrl (u : String) : Bool :=
  let l := lowerChars u
  ["png", "jpg", "jpeg", "gif", "webp", "bmp", "tif", "tiff"].any (fun ext =>
    let pat := '.' :: ext.data
    containsSub (pat ++ ['?']) l || containsSub (pat ++ ['#']) l || pat.isSuffixOf l)

/-- Video-URL sniff, model of
`/(youtube\.com|youtu\.be|vimeo\.com|\.mp4(\?|#|$))/i`. -/
def isLikelyVideoUrl (u : String) : Bool :=
  let l := lowerChars u
  containsSub "youtube.com".data l || containsSub "youtu.be".data l ||
    containsSub "vimeo.com".data l ||
    containsSub ".mp4?".data l || containsSub ".mp4#".data l ||
    ".mp4".data.isSuffixOf l

/-- Safe Browsing result as consumed by `detectByUrl`: the `flagged` bit
and whether `raw.disabled` is truthy (no key configured). -/
structure SBResult where
  flagged : Bool
  rawDisabled : Bool

/-- Response object built by `detectByUrl` (src/index.js lines 387-467).
The Gemini outcome `ai`, the YouTube thumbnail, the Safe Browsing result,
the URL-shape signals, the page metadata and the HTML red flags are
results of the external collaborators (spec section 4.2) and enter as
parameters; the function models the branch selection and the literal
response-object construction. -/
def detectByUrl (url : String) (ai : Json) (thumb : Option String) (sb : SBResult)
    (urlSignals pageStatus pageContentType : Json) (redFlags : List String) : Json :=
  if isLikelyImageUrl url then
    .jobj [("type", .jstr "image_url"),
           ("verdict", jsOr (objGet ai "verdict") (.jstr "unverified")),
           ("safeBrowsing", .jstr "n/a"),
           ("ai", ai)]
  else if isLikelyVideoUrl url then
    .jobj [("type", .jstr "video_url"),
           ("verdict", jsOr (objGet ai "risk") (.jstr "unverified")),
           ("thumbnailUrl", (thumb.map Json.jstr).getD .jnull),
           ("ai", ai)]
  else
    .jobj [("type", .jstr "link"),
           ("verdict", if sb.flagged then .jstr "likely scam"
                       else jsOr (objGet ai "risk") (.jstr "clear")),
           ("safeBrowsing", if sb.rawDisabled then .jstr "disabled"
                            else if sb.flagged then .jstr "flagged"
                            else .jstr "clear"),
           ("signals", .jobj
             [("urlSignals", urlSignals),
              ("redFlags", .jarr (redFlags.map Json.jstr)),
              ("page", .jobj [("status", pageStatus),
                              ("contentType", pageContentType)])]),
           ("ai", ai)]

/-- Fields of an object value (spread source). -/
def objFields : Json → List (String × Json)
  | .jobj fs => fs
  | _ => []

/-- URL branch of the `/api/detect` handler (src/index.js lines 515-521):
a cache hit answers `\x7bcached: true, ...cached\x7d`, a miss answers
`\x7bmode: "url", url, ...out\x7d` where `out` is the `detectByUrl`
result (which is also what gets stored in the cache). -/
def handleUrlRequest (cached : Option Json) (url : String) (out : Json) : Json :=
  match cached with
  | some c => .jobj (("cached", .jbool true) :: objFields c)
  | none => .jobj (("mode", .jstr "url") :: ("url", .jstr url) :: objFields out)

/-- File branch response of `/api/detect` (src/index.js lines 505-511). -/
def fileResponse (ai exif : Json) : Json :=
  .jobj [("mode", .jstr "file"), ("detected", .jstr "image_upload"),
         ("verdict", jsOr (objGet ai "verdict") (.jstr "unverified")),
         ("exif", exif), ("ai", ai)]

/-- Text-claim branch response of `/api/detect` (src/index.js lines
536-541). -/
def textResponse (ai : Json) : Json :=
  .jobj [("mode", .jstr "text"), ("detected", .jstr "claim"),
         ("verdict", jsOr (objGet ai "verdict") (.jstr "unverified")),
         ("ai", ai)]

/-- The expiring response cache: key, stored value, absolute expiry. -/
def CacheMap : Type := List (String × Json × Nat)

/-- Model of `setCache` (src/index.js lines 89-90): store `d` under `k`
expiring at `tExp` (`Date.now() + ttl` at the call).  `Map.set` replaces
the entry for the key; reads scan left to right, so prepending has the
same read behavior. -/
def setCache (m : CacheMap) (k : String) (d : Json) (tExp : Nat) : CacheMap :=
  (k, d, tExp) :: m

/-- Model of `getCache` (src/index.js lines 91-99): lazy expiry on read at
time `now`. -/
def getCache (m : CacheMap) (k : String) (now : Nat) : Option Json :=
  match m.find? (fun p => p.1 == k) with
  | some p => if now > p.2.2 then none else some p.2.1
  | none => none

/-- Prefixes of a character list, shortest first. -/
def prefixesOf : List Char → List (List Char)
  | [] => [[]]
  | c :: r => [] :: (prefixesOf r).map (fun p => c :: p)

/-- Suffixes of a character list, longest first. -/
def suffixesOf : List Char → List (List Char)
  | [] => [[]]
  | c :: r => (c :: r) :: suffixesOf r

/-- All contiguous substrings of a character list. -/
def infixesOf (l : List Char) : List (List Char) :=
  ((suffixesOf l).map prefixesOf).flatten

/-- Does the text parse as a JSON object? -/
def isObjParse (l : List Char) : Bool :=
  match jsonParseL l with
  | some (.jobj _) => true
  | _ => false

/-- Expected trace of a run whose every attempt is overloaded: `r` calls
with the linear backoff between consecutive attempts, starting at attempt
index `i`. -/
def trace503 : Nat → Nat → List Ev
  | 0, _ => []
  | 1, _ => [.call]
  | r + 2, i => .call :: .sleep ((i + 1) * 1000) :: trace503 (r + 1) (i + 1)

/-- Expected trace of a run whose every attempt throws: `r` calls with the
fixed 500 ms delay between consecutive attempts. -/
def traceThrow : Nat → List Ev
  | 0 => []
  | 1 => [.call]
  | r + 2 => .call :: .sleep 500 :: traceThrow (r + 1)

/-- Body of the 403 fixture response. -/
def body403 : String := "\x7b\"error\":\x7b\"message\":\"forbidden\"\x7d\x7d"

/-- Oracle whose single response is a 403 rejection. -/
def oracle403 : Nat → AttemptResult := fun _ => .response 403 body403

/-- Oracle that always reports overload. -/
def oracle503 : Nat → AttemptResult := fun _ => .response 503 "overloaded"

/-- Oracle that always throws at the transport level. -/
def oracleThrow : Nat → AttemptResult := fun _ => .throw "ETIMEDOUT"

/-- Successful body whose candidate text is prose around one JSON object. -/
def bodyProse : String :=
  "\x7b\"candidates\":[\x7b\"content\":\x7b\"parts\":[\x7b\"text\":\"Some text \x7b\\\"risk\\\":\\\"safe\\\",\\\"signals\\\":[],\\\"advice\\\":\\\"ok\\\"\x7d trailing\"\x7d]\x7d\x7d]\x7d"

/-- Oracle answering 200 with `bodyProse`. -/
def oracleProse : Nat → AttemptResult := fun _ => .response 200 bodyProse

/-- Successful body whose candidate text is one balanced JSON object
followed by a stray closing brace in the prose. -/
def bodyStray : String :=
  "\x7b\"candidates\":[\x7b\"content\":\x7b\"parts\":[\x7b\"text\":\"\x7b\\\"a\\\":1\x7d \x7d\"\x7d]\x7d\x7d]\x7d"

/-- Oracle answering 200 with `bodyStray`. -/
def oracleStray : Nat → AttemptResult := fun _ => .response 200 bodyStray

/-- Successful body whose candidate text holds no JSON at all. -/
def bodyNoJson : String :=
  "\x7b\"candidates\":[\x7b\"content\":\x7b\"parts\":[\x7b\"text\":\"hello 42\"\x7d]\x7d\x7d]\x7d"

/-- Oracle answering 200 with `bodyNoJson`. -/
def oracleNoJson : Nat → AttemptResult := fun _ => .response 200 bodyNoJson

/-- Fixture Gemini outcome used by the response-shape examples. -/
def aiFixture : Json := .jobj [("risk", .jstr "safe"), ("advice", .jstr "ok")]

/-- Fixture URL-detection output for the cache example: a generic link
with no Safe Browsing flag. -/
def c9Out : Json :=
  detectByUrl "https://example.com/" aiFixture none ⟨false, false⟩ .jnull .jnull .jnull []

/-- Fixture cache key (`url:<url>:<context>` with empty context). -/
def c9Key : String := "url:https://example.com/:"

/-- Claim C10 (implicit) — the mock policy's keyword dispatch has a fixed
precedence: a prompt containing "verify this claim" or "headline"
(case-insensitively) always gets the claim-verification shape, whatever
other keywords appear; otherwise "video url" selects the video-risk
shape; otherwise "image" the image shape; otherwise the generic
link-risk shape. -/
theorem mockFromPrompt_precedence (p : String) :
    ((promptHas "verify this claim" p || promptHas "headline" p) = true →
      mockFromPrompt p = mockClaimShape) ∧
    (promptHas "verify this claim" p = false → promptHas "headline" p = false →
      promptHas "video url" p = true → mockFromPrompt p = mockVideoShape) ∧
    (promptHas "verify this claim" p = false → promptHas "headline" p = false →
      promptHas "video url" p = false → promptHas "image" p = true →
      mockFromPrompt p = mockImageShape) ∧
    (promptHas "verify this claim" p = false → promptHas "headline" p = false →
      promptHas "video url" p = false → promptHas "image" p = false →
      mockFromPrompt p = mockLinkShape) := by
  refine ⟨fun h => ?_, fun h1 h2 h3 => ?_, fun h1 h2 h3 h4 => ?_,
    fun h1 h2 h3 h4 => ?_⟩ <;>
    simp [mockFromPrompt, *]

/-- Witness for `mockFromPrompt_precedence`: each branch at a concrete
prompt; the first prompt holds every keyword and still gets the
claim-verification shape. -/
theorem mockFromPrompt_precedence_witness :
    mockFromPrompt "Verify this claim: headline video url image" = mockClaimShape ∧
    mockFromPrompt "risky video url with an image" = mockVideoShape ∧
    mockFromPrompt "inspect this image" = mockImageShape ∧
    mockFromPrompt "a plain link" = mockLinkShape := by
  refine ⟨(mockFromPrompt_precedence _).1 (by decide),
    (mockFromPrompt_precedence _).2.1 (by decide) (by decide) (by decide),
    (mockFromPrompt_precedence _).2.2.1 (by decide) (by decide) (by decide) (by decide),
    (mockFromPrompt_precedence _).2.2.2 (by decide) (by decide) (by decide) (by decide)⟩

/-- The mock policy always yields one of the four canned shapes. -/
theorem mockFromPrompt_cases (p : String) :
    mockFromPrompt p = mockClaimShape ∨ mockFromPrompt p = mockVideoShape ∨
    mockFromPrompt p = mockImageShape ∨ mockFromPrompt p = mockLinkShape := by
  unfold mockFromPrompt
  split
  · exact Or.inl rfl
  split
  · exact Or.inr (Or.inl rfl)
  split
  · exact Or.inr (Or.inr (Or.inl rfl))
  · exact Or.inr (Or.inr (Or.inr rfl))

/-- Claim C1 — with no credential (absent or falsy-empty) or the `MOCK`
sentinel, the wrapper returns the mock-tagged verdict synthesized from
the concatenated text parts, makes zero network calls, and the verdict is
one of the four keyword-selected shapes. -/
theorem geminiCallJSON_mock_mode (key : Option String) (parts : List ReqPart)
    (retries : Nat) (oracle : Nat → AttemptResult)
    (h : mockMode key = true) :
    geminiCallJSON key parts retries oracle =
      (.mockNoKey (mockFromPrompt (joinedText parts)), []) ∧
    countCalls (geminiCallJSON key parts retries oracle).2 = 0 ∧
    (mockFromPrompt (joinedText parts) = mockClaimShape ∨
     mockFromPrompt (joinedText parts) = mockVideoShape ∨
     mockFromPrompt (joinedText parts) = mockImageShape ∨
     mockFromPrompt (joinedText parts) = mockLinkShape) := by
  refine ⟨?_, ?_, mockFromPrompt_cases _⟩ <;>
    simp [geminiCallJSON, h, countCalls]

/-- Witness for `geminiCallJSON_mock_mode` at the `MOCK` sentinel and a
claim-verification prompt. -/
theorem geminiCallJSON_mock_mode_witness :
    mockMode (some "MOCK") = true ∧
    geminiCallJSON (some "MOCK") [textPart "Verify this claim: the sky is green"] 3
        (fun _ => .throw "unreachable") =
      (.mockNoKey mockClaimShape, []) := by
  have h := geminiCallJSON_mock_mode (some "MOCK")
    [textPart "Verify this claim: the sky is green"] 3
    (fun _ => .throw "unreachable") (by decide)
  exact ⟨by decide, h.1⟩

/-- An overload status makes the try block report overload. -/
theorem tryBody_503 (b : String) : tryBody 503 b = .ok .overloaded := rfl

/-- One-step unfolding: overloaded attempt with attempts remaining sleeps
`(i+1)·1000` ms and continues. -/
theorem geminiLoop_step_overloaded (parts : List ReqPart)
    (oracle : Nat → AttemptResult) (r i : Nat) (b : String)
    (h : oracle i = .response 503 b) (hr : 0 < r) :
    geminiLoop parts oracle (r + 1) i =
      ((geminiLoop parts oracle r (i + 1)).1,
        .call :: .sleep ((i + 1) * 1000) :: (geminiLoop parts oracle r (i + 1)).2) := by
  simp [geminiLoop, h, tryBody_503, hr]

/-- One-step unfolding: overloaded attempt with no attempts remaining
falls back to the `gemini_503` mock. -/
theorem geminiLoop_last_overloaded (parts : List ReqPart)
    (oracle : Nat → AttemptResult) (i : Nat) (b : String)
    (h : oracle i = .response 503 b) :
    geminiLoop parts oracle 1 i =
      (.mockFallback "gemini_503" (mockFromPrompt (joinedText parts)), [.call]) := by
  simp [geminiLoop, h, tryBody_503]

/-- One-step unfolding: thrown attempt with attempts remaining sleeps
500 ms and continues. -/
theorem geminiLoop_step_throw (parts : List ReqPart)
    (oracle : Nat → AttemptResult) (r i : Nat) (e : String)
    (h : oracle i = .throw e) (hr : 0 < r) :
    geminiLoop parts oracle (r + 1) i =
      ((geminiLoop parts oracle r (i + 1)).1,
        .call :: .sleep 500 :: (geminiLoop parts oracle r (i + 1)).2) := by
  simp [geminiLoop, h, hr]

/-- One-step unfolding: thrown attempt with no attempts remaining falls
back to the `network_error` mock. -/
theorem geminiLoop_last_throw (parts : List ReqPart)
    (oracle : Nat → AttemptResult) (i : Nat) (e : String)
    (h : oracle i = .throw e) :
    geminiLoop parts oracle 1 i =
      (.mockFallback "network_error" (mockFromPrompt (joinedText parts)), [.call]) := by
  simp [geminiLoop, h]

/-- One-step unfolding: a responded attempt whose try block finishes ends
the loop with that outcome after exactly this one call. -/
theorem geminiLoop_finished (parts : List ReqPart)
    (oracle : Nat → AttemptResult) (r i : Nat) (st : Nat) (body : String)
    (o : Outcome) (h : oracle i = .response st body)
    (hb : tryBody st body = .ok (.finished o)) :
    geminiLoop parts oracle (r + 1) i = (o, [.call]) := by
  simp [geminiLoop, h, hb]

/-- Call and sleep counting through a two-event prefix. -/
theorem countCalls_cons_call_sleep (ms : Nat) (t : List Ev) :
    countCalls (.call :: .sleep ms :: t) = countCalls t + 1 := by
  simp [countCalls, List.filter]

/-- Delays through a two-event prefix. -/
theorem delays_cons_call_sleep (ms : Nat) (t : List Ev) :
    delays (.call :: .sleep ms :: t) = ms :: delays t := by
  simp [delays, List.filterMap]

/-- With every attempt overloaded, the loop exhausts its budget and falls
back to the mock verdict tagged `gemini_503`, with the linear-backoff
trace. -/
theorem geminiLoop_all503 (parts : List ReqPart) (oracle : Nat → AttemptResult)
    (bodies : Nat → String) :
    ∀ (r i : Nat), 0 < r →
    (∀ j, i ≤ j → j < i + r → oracle j = .response 503 (bodies j)) →
    geminiLoop parts oracle r i =
      (.mockFallback "gemini_503" (mockFromPrompt (joinedText parts)), trace503 r i) := by
  intro r
  induction r with
  | zero => intro i h; omega
  | succ r ih =>
    intro i _ ho
    have hi : oracle i = .response 503 (bodies i) := ho i le_rfl (by omega)
    cases r with
    | zero => exact geminiLoop_last_overloaded parts oracle i (bodies i) hi
    | succ r =>
      have hrec := ih (i + 1) (by omega) (fun j hj hj2 => ho j (by omega) (by omega))
      rw [geminiLoop_step_overloaded parts oracle (r + 1) i (bodies i) hi (by omega), hrec]
      simp [trace503]

/-- The overloaded trace records exactly `r` calls. -/
theorem countCalls_trace503 : ∀ (r i : Nat), countCalls (trace503 r i) = r := by
  intro r
  induction r with
  | zero => intro i; rfl
  | succ r ih =>
    intro i
    cases r with
    | zero => rfl
    | succ r =>
      have := ih (i + 1)
      simp [trace503, countCalls_cons_call_sleep, this]

/-- The overloaded trace sleeps `(i+1)·1000, (i+2)·1000, …` between
consecutive attempts. -/
theorem delays_trace503 : ∀ (r i : Nat),
    delays (trace503 r i) = (List.range' (i + 1) (r - 1)).map (fun k => k * 1000) := by
  intro r
  induction r with
  | zero => intro i; rfl
  | succ r ih =>
    intro i
    cases r with
    | zero => rfl
    | succ r =>
      have hr : List.range' (i + 1) (r + 1) = (i + 1) :: List.range' (i + 2) (r + 1 - 1) := by
        simp [List.range'_succ]
      simp only [trace503, delays_cons_call_sleep, ih (i + 1), Nat.succ_sub_one, hr,
        List.map_cons]

/-- Every element of `range'` is at least the start. -/
theorem mem_range'_lb : ∀ (n s k : Nat), k ∈ List.range' s n → s ≤ k := by
  intro n
  induction n with
  | zero => intro s k h; simp [List.range'] at h
  | succ n ih =>
    intro s k h
    rw [List.range'_succ] at h
    rcases List.mem_cons.mp h with h | h
    · omega
    · have := ih (s + 1) k h; omega

/-- `range'` with step 1 is strictly increasing. -/
theorem pairwise_lt_range'_one : ∀ (n s : Nat),
    List.Pairwise (· < ·) (List.range' s n) := by
  intro n
  induction n with
  | zero => intro s; simp [List.range']
  | succ n ih =>
    intro s
    rw [List.range'_succ]
    exact List.Pairwise.cons (fun k hk => by have := mem_range'_lb n (s + 1) k hk; omega)
      (ih (s + 1))

/-- Claim C2 — when every attempt returns the overload status and the
attempt budget is exhausted, the wrapper returns the mock verdict tagged
with the overload fallback reason (represented in the code by the
`_fallback: "gemini_503"` tag). -/
theorem geminiCallJSON_overloaded_fallback (key : Option String)
    (parts : List ReqPart) (n : Nat) (oracle : Nat → AttemptResult)
    (bodies : Nat → String)
    (hk : mockMode key = false) (hn : 1 ≤ n)
    (ho : ∀ j, j < n → oracle j = .response 503 (bodies j)) :
    (geminiCallJSON key parts n oracle).1 =
      .mockFallback "gemini_503" (mockFromPrompt (joinedText parts)) := by
  have h := geminiLoop_all503 parts oracle bodies n 0 (by omega)
    (fun j hj hj2 => ho j (by omega))
  simp [geminiCallJSON, hk, h]

/-- Witness for `geminiCallJSON_overloaded_fallback`: three overloaded
attempts on a generic prompt. -/
theorem geminiCallJSON_overloaded_fallback_witness :
    (geminiCallJSON (some "apikey") [textPart "check this link"] 3 oracle503).1 =
      .mockFallback "gemini_503" (mockFromPrompt "check this link") := by
  have h := geminiCallJSON_overloaded_fallback (some "apikey")
    [textPart "check this link"] 3 oracle503 (fun _ => "overloaded")
    (by decide) (by decide) (fun j hj => rfl)
  exact h

/-- Claim C3 — when every attempt returns the overload status with
`maxAttempts = n ≥ 1`, exactly `n` upstream attempts are made, and the
backoff delays between consecutive attempts are `1000, 2000, …,
(n-1)·1000` milliseconds, strictly increasing. -/
theorem geminiCallJSON_overloaded_trace (key : Option String)
    (parts : List ReqPart) (n : Nat) (oracle : Nat → AttemptResult)
    (bodies : Nat → String)
    (hk : mockMode key = false) (hn : 1 ≤ n)
    (ho : ∀ j, j < n → oracle j = .response 503 (bodies j)) :
    countCalls (geminiCallJSON key parts n oracle).2 = n ∧
    delays (geminiCallJSON key parts n oracle).2 =
      (List.range' 1 (n - 1)).map (fun k => k * 1000) ∧
    List.Pairwise (· < ·) (delays (geminiCallJSON key parts n oracle).2) := by
  have h := geminiLoop_all503 parts oracle bodies n 0 (by omega)
    (fun j hj hj2 => ho j (by omega))
  have htr : (geminiCallJSON key parts n oracle).2 = trace503 n 0 := by
    simp [geminiCallJSON, hk, h]
  refine ⟨?_, ?_, ?_⟩
  · rw [htr, countCalls_trace503]
  · rw [htr, delays_trace503]
  · rw [htr, delays_trace503]
    exact List.Pairwise.map _ (fun a b hab => by omega) (pairwise_lt_range'_one (n - 1) 1)

/-- Witness for `geminiCallJSON_overloaded_trace`: three overloaded
attempts yield three calls and waits of 1000 ms then 2000 ms. -/
theorem geminiCallJSON_overloaded_trace_witness :
    countCalls (geminiCallJSON (some "apikey") [] 3 oracle503).2 = 3 ∧
    delays (geminiCallJSON (some "apikey") [] 3 oracle503).2 = [1000, 2000] ∧
    List.Pairwise (· < ·) (delays (geminiCallJSON (some "apikey") [] 3 oracle503).2) := by
  have h := geminiCallJSON_overloaded_trace (some "apikey") [] 3 oracle503
    (fun _ => "overloaded") (by decide) (by decide) (fun j hj => rfl)
  refine ⟨h.1, ?_, h.2.2⟩
  rw [h.2.1]
  decide

/-- With every attempt throwing, the loop exhausts its budget and falls
back to the mock verdict tagged `network_error`, with constant 500 ms
delays. -/
theorem geminiLoop_allThrow (parts : List ReqPart) (oracle : Nat → AttemptResult)
    (errs : Nat → String) :
    ∀ (r i : Nat), 0 < r →
    (∀ j, i ≤ j → j < i + r → oracle j = .throw (errs j)) →
    geminiLoop parts oracle r i =
      (.mockFallback "network_error" (mockFromPrompt (joinedText parts)), traceThrow r) := by
  intro r
  induction r with
  | zero => intro i h; omega
  | succ r ih =>
    intro i _ ho
    have hi : oracle i = .throw (errs i) := ho i le_rfl (by omega)
    cases r with
    | zero => exact geminiLoop_last_throw parts oracle i (errs i) hi
    | succ r =>
      have hrec := ih (i + 1) (by omega) (fun j hj hj2 => ho j (by omega) (by omega))
      rw [geminiLoop_step_throw parts oracle (r + 1) i (errs i) hi (by omega), hrec]
      simp [traceThrow]

/-- The throw trace records exactly `r` calls. -/
theorem countCalls_traceThrow : ∀ (r : Nat), countCalls (traceThrow r) = r := by
  intro r
  induction r with
  | zero => rfl
  | succ r ih =>
    cases r with
    | zero => rfl
    | succ r => simp [traceThrow, countCalls_cons_call_sleep, ih]

/-- The throw trace sleeps a constant 500 ms between consecutive
attempts. -/
theorem delays_traceThrow : ∀ (r : Nat),
    delays (traceThrow r) = List.replicate (r - 1) 500 := by
  intro r
  induction r with
  | zero => rfl
  | succ r ih =>
    cases r with
    | zero => rfl
    | succ r =>
      simp only [traceThrow, delays_cons_call_sleep, ih, Nat.succ_sub_one]
      rw [List.replicate_succ]

/-- Claim C4 — when every attempt fails at the transport level, the delay
between consecutive attempts is a constant 500 ms, and on exhaustion the
wrapper returns the mock verdict tagged `network_error`. -/
theorem geminiCallJSON_network_error (key : Option String)
    (parts : List ReqPart) (n : Nat) (oracle : Nat → AttemptResult)
    (errs : Nat → String)
    (hk : mockMode key = false) (hn : 1 ≤ n)
    (ho : ∀ j, j < n → oracle j = .throw (errs j)) :
    (geminiCallJSON key parts n oracle).1 =
      .mockFallback "network_error" (mockFromPrompt (joinedText parts)) ∧
    countCalls (geminiCallJSON key parts n oracle).2 = n ∧
    delays (geminiCallJSON key parts n oracle).2 = List.replicate (n - 1) 500 := by
  have h := geminiLoop_allThrow parts oracle errs n 0 (by omega)
    (fun j hj hj2 => ho j (by omega))
  have htr : geminiCallJSON key parts n oracle =
      (.mockFallback "network_error" (mockFromPrompt (joinedText parts)), traceThrow n) := by
    simp [geminiCallJSON, hk, h]
  rw [htr]
  exact ⟨rfl, countCalls_traceThrow n, delays_traceThrow n⟩

/-- Witness for `geminiCallJSON_network_error`: three timeouts yield the
`network_error` mock with two 500 ms delays. -/
theorem geminiCallJSON_network_error_witness :
    (geminiCallJSON (some "apikey") [textPart "check this link"] 3 oracleThrow).1 =
      .mockFallback "network_error" (mockFromPrompt "check this link") ∧
    delays (geminiCallJSON (some "apikey") [textPart "check this link"] 3 oracleThrow).2 =
      [500, 500] := by
  have h := geminiCallJSON_network_error (some "apikey") [textPart "check this link"] 3
    oracleThrow (fun _ => "ETIMEDOUT") (by decide) (by decide) (fun j hj => rfl)
  refine ⟨h.1, ?_⟩
  rw [h.2.2]
  decide

/-- A non-overload failure status makes the try block finish with the
hard error carrying the status and the extracted upstream message. -/
theorem tryBody_reject (st : Nat) (body : String)
    (h503 : st ≠ 503) (hok : ¬(200 ≤ st ∧ st < 300)) :
    tryBody st body = .ok (.finished (.hardError
      ("Gemini error " ++ toString st ++ ": " ++ upstreamErrMsg body) none)) := by
  have h1 : (st == 503) = false := by simpa using h503
  have h2 : (200 ≤ st && st < 300) = false := by
    by_cases ha : 200 ≤ st
    · by_cases hb : st < 300
      · exact absurd ⟨ha, hb⟩ hok
      · simp [hb]
    · simp [ha]
  simp [tryBody, h1, h2]

/-- After `j` retryable attempts (overload or throw), an attempt whose try
block finishes ends the loop with that outcome and exactly `j + 1`
calls. -/
theorem geminiLoop_finishes_after (parts : List ReqPart)
    (oracle : Nat → AttemptResult) (st : Nat) (body : String) (o : Outcome)
    (htb : tryBody st body = .ok (.finished o)) :
    ∀ (j r i : Nat), j < r →
    (∀ k, i ≤ k → k < i + j →
      (∃ b, oracle k = .response 503 b) ∨ (∃ s, oracle k = .throw s)) →
    oracle (i + j) = .response st body →
    ∃ evs, geminiLoop parts oracle r i = (o, evs) ∧ countCalls evs = j + 1 := by
  intro j
  induction j with
  | zero =>
    intro r i hj _ hat
    cases r with
    | zero => omega
    | succ r =>
      refine ⟨[.call], geminiLoop_finished parts oracle r i st body o ?_ htb, rfl⟩
      simpa using hat
  | succ j ih =>
    intro r i hj hpre hat
    cases r with
    | zero => omega
    | succ r =>
      have hstep : i + 1 + j = i + (j + 1) := by omega
      have hat' : oracle (i + 1 + j) = .response st body := by rw [hstep]; exact hat
      have hpre' : ∀ k, i + 1 ≤ k → k < i + 1 + j →
          (∃ b, oracle k = .response 503 b) ∨ (∃ s, oracle k = .throw s) :=
        fun k hk1 hk2 => hpre k (by omega) (by omega)
      obtain ⟨evs', heq, hc⟩ := ih r (i + 1) (by omega) hpre' hat'
      rcases hpre i le_rfl (by omega) with ⟨b, hb⟩ | ⟨s, hs⟩
      · refine ⟨.call :: .sleep ((i + 1) * 1000) :: evs', ?_, ?_⟩
        · rw [geminiLoop_step_overloaded parts oracle r i b hb (by omega), heq]
        · rw [countCalls_cons_call_sleep, hc]
      · refine ⟨.call :: .sleep 500 :: evs', ?_, ?_⟩
        · rw [geminiLoop_step_throw parts oracle r i s hs (by omega), heq]
        · rw [countCalls_cons_call_sleep, hc]

/-- Claim C5 — a response with a non-2xx, non-503 status ends the run at
once: the wrapper returns the hard error carrying the upstream status
code and the upstream error message, with no further attempt and no mock
fallback.  Earlier attempts may have been overloaded or thrown; the bad
response is answered on attempt `j` and exactly `j + 1` calls happen. -/
theorem geminiCallJSON_upstream_rejection (key : Option String)
    (parts : List ReqPart) (n j st : Nat) (oracle : Nat → AttemptResult)
    (body : String) (d e : Json) (m : String)
    (hk : mockMode key = false) (hj : j < n)
    (hpre : ∀ k, k < j →
      (∃ b, oracle k = .response 503 b) ∨ (∃ s, oracle k = .throw s))
    (hat : oracle j = .response st body)
    (h503 : st ≠ 503) (hok : ¬(200 ≤ st ∧ st < 300))
    (hd : jsonParseStr body = some d) (he : objGet d "error" = some e)
    (hm : objGet e "message" = some (.jstr m)) (hne : (m == "") = false) :
    ∃ evs, geminiCallJSON key parts n oracle =
      (.hardError ("Gemini error " ++ toString st ++ ": " ++ m) none, evs) ∧
      countCalls evs = j + 1 := by
  have hmsg : upstreamErrMsg body = m := by
    simp [upstreamErrMsg, hd, he, hm, jsTruthy, jsToString, hne]
  have htb := tryBody_reject st body h503 hok
  rw [hmsg] at htb
  have h := geminiLoop_finishes_after parts oracle st body _ htb j n 0 hj
    (fun k hk1 hk2 => hpre k (by omega)) (by simpa using hat)
  simpa [geminiCallJSON, hk] using h

/-- Witness for `geminiCallJSON_upstream_rejection`: a single 403 with
body `\x7b"error":\x7b"message":"forbidden"\x7d\x7d` yields the hard
error naming 403 and "forbidden" after one call. -/
theorem geminiCallJSON_upstream_rejection_witness :
    ∃ evs, geminiCallJSON (some "apikey") [] 1 oracle403 =
      (.hardError "Gemini error 403: forbidden" none, evs) ∧
      countCalls evs = 1 := by
  have h := geminiCallJSON_upstream_rejection (some "apikey") [] 1 0 403 oracle403
    body403 (.jobj [("error", .jobj [("message", .jstr "forbidden")])])
    (.jobj [("message", .jstr "forbidden")]) "forbidden"
    (by decide) (by decide) (fun k hk => absurd hk (Nat.not_lt_zero k)) rfl
    (by decide) (by intro hc; exact absurd hc.2 (by decide)) rfl rfl rfl (by decide)
  obtain ⟨evs, h1, h2⟩ := h
  have hs : ("Gemini error " ++ toString 403 ++ ": " ++ "forbidden") =
      "Gemini error 403: forbidden" := by decide
  rw [hs] at h1
  exact ⟨evs, h1, h2⟩

/-- One-step unfolding: overloaded try result with attempts remaining. -/
theorem geminiLoop_resp_over_step (parts : List ReqPart)
    (oracle : Nat → AttemptResult) (r i st : Nat) (body : String)
    (h : oracle i = .response st body) (htb : tryBody st body = .ok .overloaded)
    (hr : 0 < r) :
    geminiLoop parts oracle (r + 1) i =
      ((geminiLoop parts oracle r (i + 1)).1,
        .call :: .sleep ((i + 1) * 1000) :: (geminiLoop parts oracle r (i + 1)).2) := by
  simp [geminiLoop, h, htb, hr]

/-- One-step unfolding: overloaded try result with no attempts
remaining. -/
theorem geminiLoop_resp_over_last (parts : List ReqPart)
    (oracle : Nat → AttemptResult) (i st : Nat) (body : String)
    (h : oracle i = .response st body) (htb : tryBody st body = .ok .overloaded) :
    geminiLoop parts oracle 1 i =
      (.mockFallback "gemini_503" (mockFromPrompt (joinedText parts)), [.call]) := by
  simp [geminiLoop, h, htb]

/-- One-step unfolding: a try block that throws with attempts remaining
behaves like a transport error. -/
theorem geminiLoop_resp_err_step (parts : List ReqPart)
    (oracle : Nat → AttemptResult) (r i st : Nat) (body s : String)
    (h : oracle i = .response st body) (htb : tryBody st body = .error s)
    (hr : 0 < r) :
    geminiLoop parts oracle (r + 1) i =
      ((geminiLoop parts oracle r (i + 1)).1,
        .call :: .sleep 500 :: (geminiLoop parts oracle r (i + 1)).2) := by
  simp [geminiLoop, h, htb, hr]

/-- One-step unfolding: a try block that throws with no attempts
remaining falls back to the `network_error` mock. -/
theorem geminiLoop_resp_err_last (parts : List ReqPart)
    (oracle : Nat → AttemptResult) (i st : Nat) (body s : String)
    (h : oracle i = .response st body) (htb : tryBody st body = .error s) :
    geminiLoop parts oracle 1 i =
      (.mockFallback "network_error" (mockFromPrompt (joinedText parts)), [.call]) := by
  simp [geminiLoop, h, htb]

/-- The loop never makes more calls than its remaining budget. -/
theorem countCalls_geminiLoop_le (parts : List ReqPart)
    (oracle : Nat → AttemptResult) :
    ∀ (r i : Nat), countCalls (geminiLoop parts oracle r i).2 ≤ r := by
  intro r
  induction r with
  | zero => intro i; simp [geminiLoop, countCalls]
  | succ r ih =>
    intro i
    cases ho : oracle i with
    | response st body =>
      cases htb : tryBody st body with
      | ok tr =>
        cases tr with
        | overloaded =>
          cases r with
          | zero =>
            rw [geminiLoop_resp_over_last parts oracle i st body ho htb]
            simp [countCalls]
          | succ r' =>
            rw [geminiLoop_resp_over_step parts oracle (r' + 1) i st body ho htb (by omega)]
            rw [countCalls_cons_call_sleep]
            have := ih (i + 1)
            omega
        | finished o =>
          rw [geminiLoop_finished parts oracle r i st body o ho htb]
          simp [countCalls]
      | error s =>
        cases r with
        | zero =>
          rw [geminiLoop_resp_err_last parts oracle i st body s ho htb]
          simp [countCalls]
        | succ r' =>
          rw [geminiLoop_resp_err_step parts oracle (r' + 1) i st body s ho htb (by omega)]
          rw [countCalls_cons_call_sleep]
          have := ih (i + 1)
          omega
    | throw e =>
      cases r with
      | zero =>
        rw [geminiLoop_last_throw parts oracle i e ho]
        simp [countCalls]
      | succ r' =>
        rw [geminiLoop_step_throw parts oracle (r' + 1) i e ho (by omega)]
        rw [countCalls_cons_call_sleep]
        have := ih (i + 1)
        omega

/-- Claim C8 — for every key, request, retry budget and oracle, the
wrapper returns exactly one outcome (it is a total function into the
outcome type), that outcome is a parsed verdict, a mock-tagged fallback,
or a hard error, and at most `retries` upstream attempts are made.  Every
exception a try block can raise is consumed by the catch branch of the
loop, so no path escapes without producing an outcome. -/
theorem geminiCallJSON_total (key : Option String) (parts : List ReqPart)
    (retries : Nat) (oracle : Nat → AttemptResult) :
    ∃ o evs, geminiCallJSON key parts retries oracle = (o, evs) ∧
      countCalls evs ≤ retries ∧
      ((∃ v, o = .verdict v) ∨ (∃ v, o = .mockNoKey v) ∨
       (∃ r v, o = .mockFallback r v) ∨ (∃ m raw, o = .hardError m raw)) := by
  refine ⟨(geminiCallJSON key parts retries oracle).1,
    (geminiCallJSON key parts retries oracle).2, rfl, ?_, ?_⟩
  · by_cases hk : mockMode key = true
    · simp [geminiCallJSON, hk, countCalls]
    · have hk' : mockMode key = false := by simpa using hk
      simp only [geminiCallJSON, hk', Bool.false_eq_true, if_false]
      exact countCalls_geminiLoop_le parts oracle retries 0
  · cases h : (geminiCallJSON key parts retries oracle).1 with
    | verdict v => exact Or.inl ⟨v, rfl⟩
    | mockNoKey v => exact Or.inr (Or.inl ⟨v, rfl⟩)
    | mockFallback r v => exact Or.inr (Or.inr (Or.inl ⟨r, v, rfl⟩))
    | hardError m raw => exact Or.inr (Or.inr (Or.inr ⟨m, raw, rfl⟩))

/-- Dropping over a prefix that satisfies the predicate throughout. -/
theorem dropWhile_append_all (p : Char → Bool) :
    ∀ (pre rest : List Char), (∀ c ∈ pre, p c = true) →
    List.dropWhile p (pre ++ rest) = List.dropWhile p rest := by
  intro pre
  induction pre with
  | nil => intro rest _; rfl
  | cons c pre ih =>
    intro rest h
    have hc : p c = true := h c (by simp)
    simp only [List.cons_append, List.dropWhile_cons, hc, if_true]
    exact ih rest (fun x hx => h x (by simp [hx]))

/-- Dropping stops at once on a failing head. -/
theorem dropWhile_cons_of_neg (p : Char → Bool) (c : Char) (l : List Char)
    (h : p c = false) : List.dropWhile p (c :: l) = c :: l := by
  simp [List.dropWhile_cons, h]

/-- When the text decomposes as brace-free prose, then a span beginning
with the first opening brace and ending with the last closing brace, then
prose free of closing braces, the greedy first-to-last-brace match
returns exactly that span. -/
theorem extractBraces_decomp (pre s post : List Char)
    (hpre : ∀ c ∈ pre, c ≠ lbrace) (hpost : ∀ c ∈ post, c ≠ rbrace)
    (hhead : s.head? = some lbrace) (hlast : s.getLast? = some rbrace) :
    extractBraces (pre ++ s ++ post) = some s := by
  cases s with
  | nil => simp at hhead
  | cons a s' =>
    have ha : a = lbrace := by simpa using hhead
    subst ha
    have h1 : List.dropWhile (fun c => c ≠ lbrace) (pre ++ (lbrace :: s') ++ post)
        = lbrace :: (s' ++ post) := by
      rw [List.append_assoc]
      rw [dropWhile_append_all _ pre _ (fun c hc => by simp [hpre c hc])]
      simp only [List.cons_append]
      exact dropWhile_cons_of_neg _ _ _ (by simp)
    obtain ⟨q', hq⟩ : ∃ q', (lbrace :: s').reverse = rbrace :: q' := by
      have hh : (lbrace :: s').reverse.head? = some rbrace := by
        rw [List.head?_reverse]; exact hlast
      cases hqq : (lbrace :: s').reverse with
      | nil => rw [hqq] at hh; simp at hh
      | cons b q' =>
        rw [hqq] at hh
        simp only [List.head?_cons, Option.some.injEq] at hh
        exact ⟨q', by rw [hh]⟩
    have h2 : List.dropWhile (fun c => c ≠ rbrace) (lbrace :: (s' ++ post)).reverse
        = (lbrace :: s').reverse := by
      have hsplit : (lbrace :: (s' ++ post)).reverse
          = post.reverse ++ (lbrace :: s').reverse := by
        simp [List.reverse_cons, List.reverse_append, List.append_assoc]
      rw [hsplit]
      rw [dropWhile_append_all _ post.reverse _
        (fun c hc => by simp [hpost c (List.mem_reverse.mp hc)])]
      rw [hq]
      exact dropWhile_cons_of_neg _ _ _ (by simp)
    unfold extractBraces
    simp only [h1, List.reverse_cons]
    rw [show ((s' ++ post).reverse ++ [lbrace]) = (lbrace :: (s' ++ post)).reverse by
      simp [List.reverse_cons]]
    rw [h2, hq]
    simp only [List.isEmpty_cons, if_false, Bool.false_eq_true]
    rw [show (rbrace :: q') = (lbrace :: s').reverse from hq.symm]
    simp

/-- A 2xx response whose candidate value is a string finishes the try
block with the brace-extraction tail on that string (an empty string is
falsy and replaced by the empty text, which yields the same result). -/
theorem tryBody_success_text (st : Nat) (body t : String)
    (h2xx : 200 ≤ st ∧ st < 300)
    (hcv : candidateVal body = some (.jstr t)) :
    tryBody st body = .ok (.finished (finishText t)) := by
  have h1 : (st == 503) = false := by
    have : st ≠ 503 := by omega
    simpa using this
  have h2 : (200 ≤ st && st < 300) = true := by simp [h2xx.1, h2xx.2]
  by_cases ht : t = ""
  · subst ht; simp [tryBody, h1, h2, hcv, jsTruthy]
  · have htb : (t == "") = false := by simpa using ht
    simp [tryBody, h1, h2, hcv, jsTruthy, htb]

/-- Claim C6, amended — for a 2xx response whose candidate text splits as
prose, then one parseable brace-delimited JSON object span, then prose,
where the prose before the span contains no opening brace and the prose
after it contains no closing brace, the wrapper extracts exactly that
span, parses it, and returns the parsed object, discarding the prose.
(The unamended claim fails: the greedy match runs to the last closing
brace of the whole text, see the counterexample.) -/
theorem geminiCallJSON_extracts_object (key : Option String)
    (parts : List ReqPart) (n st : Nat) (oracle : Nat → AttemptResult)
    (body t : String) (pre s post : List Char) (v : Json)
    (hk : mockMode key = false) (hn : 0 < n)
    (hat : oracle 0 = .response st body)
    (h2xx : 200 ≤ st ∧ st < 300)
    (hcv : candidateVal body = some (.jstr t))
    (ht : t.data = pre ++ s ++ post)
    (hpre : ∀ c ∈ pre, c ≠ lbrace) (hpost : ∀ c ∈ post, c ≠ rbrace)
    (hhead : s.head? = some lbrace) (hlast : s.getLast? = some rbrace)
    (hparse : jsonParseL s = some v) :
    geminiCallJSON key parts n oracle = (.verdict v, [.call]) := by
  have hfin : finishText t = .verdict v := by
    unfold finishText
    rw [ht, extractBraces_decomp pre s post hpre hpost hhead hlast]
    simp only [hparse]
  have htb := tryBody_success_text st body t h2xx hcv
  rw [hfin] at htb
  obtain ⟨n', rfl⟩ : ∃ n', n = n' + 1 := ⟨n - 1, by omega⟩
  have hfin2 := geminiLoop_finished parts oracle n' 0 st body (.verdict v) hat htb
  simp [geminiCallJSON, hk, hfin2]

/-- Counterexample to claim C6 as stated: the candidate text
`\x7b"a":1\x7d \x7d` is exactly one balanced, parseable JSON object
followed by the prose ` \x7d`, yet the run returns the bad-JSON hard
error carrying the raw text, not the parsed object — the greedy match
spans to the stray closing brace. -/
theorem geminiCallJSON_greedy_brace_counterexample :
    (geminiCallJSON (some "apikey") [] 1 oracleStray =
      (.hardError "Bad/empty JSON from Gemini" (some "\x7b\"a\":1\x7d \x7d"),
        [.call])) ∧
    jsonParseL "\x7b\"a\":1\x7d".data = some (.jobj [("a", .jnum "1")]) ∧
    "\x7b\"a\":1\x7d \x7d".data = "\x7b\"a\":1\x7d".data ++ " \x7d".data := by
  exact ⟨rfl, rfl, rfl⟩

/-- Witness for `geminiCallJSON_extracts_object`: prose around one object
in the candidate text of `bodyProse` yields the parsed object after one
call. -/
theorem geminiCallJSON_extracts_object_witness :
    geminiCallJSON (some "apikey") [] 1 oracleProse =
      (.verdict (.jobj [("risk", .jstr "safe"), ("signals", .jarr []),
        ("advice", .jstr "ok")]), [.call]) := by
  exact geminiCallJSON_extracts_object (some "apikey") [] 1 200 oracleProse
    bodyProse
    "Some text \x7b\"risk\":\"safe\",\"signals\":[],\"advice\":\"ok\"\x7d trailing"
    "Some text ".data
    "\x7b\"risk\":\"safe\",\"signals\":[],\"advice\":\"ok\"\x7d".data
    " trailing".data
    (.jobj [("risk", .jstr "safe"), ("signals", .jarr []), ("advice", .jstr "ok")])
    (by decide) (by decide) rfl (by exact ⟨by decide, by decide⟩) rfl rfl
    (by decide) (by decide) rfl rfl rfl

/-- A list is a suffix in `suffixesOf` of anything it ends. -/
theorem mem_suffixesOf_append : ∀ (pre rest : List Char),
    rest ∈ suffixesOf (pre ++ rest) := by
  intro pre
  induction pre with
  | nil => intro rest; cases rest <;> simp [suffixesOf]
  | cons c pre ih =>
    intro rest
    simp only [List.cons_append, suffixesOf]
    exact List.mem_cons_of_mem _ (ih rest)

/-- A list is a prefix in `prefixesOf` of anything it begins. -/
theorem mem_prefixesOf_append : ∀ (s post : List Char),
    s ∈ prefixesOf (s ++ post) := by
  intro s
  induction s with
  | nil => intro post; cases post <;> simp [prefixesOf]
  | cons a s ih =>
    intro post
    simp only [List.cons_append, prefixesOf, List.mem_cons]
    exact Or.inr (List.mem_map.mpr ⟨s, ih post, rfl⟩)

/-- Any middle factor of a concatenation occurs among the substrings. -/
theorem mem_infixesOf (l s pre post : List Char) (h : l = pre ++ s ++ post) :
    s ∈ infixesOf l := by
  subst h
  unfold infixesOf
  rw [List.mem_flatten]
  refine ⟨prefixesOf (s ++ post), List.mem_map.mpr ⟨s ++ post, ?_, rfl⟩,
    mem_prefixesOf_append s post⟩
  rw [List.append_assoc]
  exact mem_suffixesOf_append pre (s ++ post)

/-- The head surviving a `dropWhile` fails the predicate. -/
theorem dropWhile_head_false (p : Char → Bool) :
    ∀ (l : List Char) (a : Char) (t : List Char),
    List.dropWhile p l = a :: t → p a = false := by
  intro l
  induction l with
  | nil => intro a t h; simp [List.dropWhile] at h
  | cons c r ih =>
    intro a t h
    rw [List.dropWhile_cons] at h
    by_cases hc : p c = true
    · rw [if_pos hc] at h
      exact ih a t h
    · have hc' : p c = false := by simpa using hc
      rw [if_neg (by simp [hc'])] at h
      cases h
      exact hc'

/-- A successful greedy match is a contiguous substring of the text and
begins with an opening brace. -/
theorem extractBraces_sub (l s : List Char) (h : extractBraces l = some s) :
    (∃ pre post, l = pre ++ s ++ post) ∧ s.head? = some lbrace := by
  simp only [extractBraces] at h
  split at h
  · exact absurd h (by simp)
  split at h
  · exact absurd h (by simp)
  rename_i hsuf hrev
  set suf := List.dropWhile (fun c => c ≠ lbrace) l with hsufdef
  set rev := List.dropWhile (fun c => c ≠ rbrace) suf.reverse with hrevdef
  have hs : s = rev.reverse := (Option.some.injEq _ _).mp h.symm
  have hl : l.takeWhile (fun c => c ≠ lbrace) ++ suf = l :=
    List.takeWhile_append_dropWhile _ _
  have hsufsplit : suf = s ++ (suf.reverse.takeWhile (fun c => c ≠ rbrace)).reverse := by
    have h1 : suf.reverse.takeWhile (fun c => c ≠ rbrace) ++ rev = suf.reverse :=
      List.takeWhile_append_dropWhile _ _
    have h2 := congrArg List.reverse h1
    rw [List.reverse_append, List.reverse_reverse] at h2
    rw [hs]
    exact h2.symm
  have hldec : l = l.takeWhile (fun c => c ≠ lbrace) ++ s ++
      (suf.reverse.takeWhile (fun c => c ≠ rbrace)).reverse := by
    rw [List.append_assoc, ← hsufsplit, hl]
  refine ⟨⟨_, _, hldec⟩, ?_⟩
  cases hsufc : suf with
  | nil => rw [hsufc] at hsuf; simp at hsuf
  | cons a tail =>
    have ha : a = lbrace := by
      have := dropWhile_head_false (fun c => c ≠ lbrace) l a tail
        (by rw [← hsufdef, hsufc])
      simpa using this
    cases hsc : s with
    | nil =>
      exfalso
      rw [hsc] at hs
      have hr0 : rev = [] := by
        have h3 := hs.symm
        simpa using h3
      rw [hr0] at hrev
      simp at hrev
    | cons b s' =>
      rw [hsc, hsufc] at hsufsplit
      have hb : b = a := by
        simp only [List.cons_append] at hsufsplit
        exact ((List.cons.injEq _ _ _ _).mp hsufsplit).1.symm
      rw [List.head?_cons, hb, ha]

/-- A nonempty-object parse only ever returns an object value. -/
theorem parseMembers_obj : ∀ (f : Nat) (l : List Char)
    (acc : List (String × Json)) (v : Json) (r : List Char),
    parseMembers f l acc = some (v, r) → ∃ fs, v = .jobj fs := by
  intro f
  induction f with
  | zero => intro l acc v r h; simp [parseMembers] at h
  | succ f ih =>
    intro l acc v r h
    simp only [parseMembers] at h
    split at h
    · exact absurd h (by simp)
    split at h
    · split at h
      · exact absurd h (by simp)
      · split at h
        · split at h
          · exact absurd h (by simp)
          · split at h
            · exact absurd h (by simp)
            · split at h
              · exact ih _ _ _ _ h
              · split at h
                · have := (Option.some.injEq _ _).mp h
                  exact ⟨_, (Prod.mk.injEq _ _ _ _).mp this |>.1.symm⟩
                · exact absurd h (by simp)
        · exact absurd h (by simp)
    · exact absurd h (by simp)

/-- A value parse starting at an opening brace only ever returns an
object value. -/
theorem parseValue_brace_obj (f : Nat) (rest : List Char) (v : Json)
    (r : List Char) (h : parseValue f (lbrace :: rest) = some (v, r)) :
    ∃ fs, v = .jobj fs := by
  cases f with
  | zero => simp [parseValue] at h
  | succ f =>
    have hsw : skipWs (lbrace :: rest) = lbrace :: rest :=
      dropWhile_cons_of_neg _ _ _ (by decide)
    simp only [parseValue, hsw, if_true] at h
    split at h
    · exact absurd h (by simp)
    · split at h
      · have := (Option.some.injEq _ _).mp h
        exact ⟨_, (Prod.mk.injEq _ _ _ _).mp this |>.1.symm⟩
      · exact parseMembers_obj f _ _ _ _ h

/-- `JSON.parse` of a text starting with an opening brace only ever
yields an object. -/
theorem jsonParseL_brace_obj (rest : List Char) (v : Json)
    (h : jsonParseL (lbrace :: rest) = some v) : ∃ fs, v = .jobj fs := by
  unfold jsonParseL at h
  split at h
  · rename_i p heq
    split at h
    · cases h
      exact parseValue_brace_obj _ _ _ _ heq
    · exact absurd h (by simp)
  · exact absurd h (by simp)

/-- Claim C7 — for a 2xx response whose candidate text contains no
substring that parses as a JSON object, the wrapper returns the bad-JSON
hard error carrying the original raw text verbatim (and not a mock). -/
theorem geminiCallJSON_unparseable_raw (key : Option String)
    (parts : List ReqPart) (n st : Nat) (oracle : Nat → AttemptResult)
    (body t : String)
    (hk : mockMode key = false) (hn : 0 < n)
    (hat : oracle 0 = .response st body)
    (h2xx : 200 ≤ st ∧ st < 300)
    (hcv : candidateVal body = some (.jstr t))
    (hnoobj : ∀ s ∈ infixesOf t.data, isObjParse s = false) :
    geminiCallJSON key parts n oracle =
      (.hardError "Bad/empty JSON from Gemini" (some t), [.call]) := by
  have hfin : finishText t = .hardError "Bad/empty JSON from Gemini" (some t) := by
    unfold finishText
    cases hex : extractBraces t.data with
    | none => rfl
    | some s =>
      obtain ⟨⟨pre, post, hdec⟩, hhead⟩ := extractBraces_sub t.data s hex
      cases hp : jsonParseL s with
      | none => simp only [hp]
      | some v =>
        obtain ⟨s', rfl⟩ : ∃ s', s = lbrace :: s' := by
          cases s with
          | nil => simp at hhead
          | cons a s' =>
            have : a = lbrace := by simpa using hhead
            exact ⟨s', by rw [this]⟩
        obtain ⟨fs, rfl⟩ := jsonParseL_brace_obj s' _ hp
        have hmem := mem_infixesOf t.data (lbrace :: s') pre post hdec
        have hobj := hnoobj _ hmem
        simp only [isObjParse, hp] at hobj
        exact absurd hobj (by simp)
  have htb := tryBody_success_text st body t h2xx hcv
  rw [hfin] at htb
  obtain ⟨n', rfl⟩ : ∃ n', n = n' + 1 := ⟨n - 1, by omega⟩
  have h2 := geminiLoop_finished parts oracle n' 0 st body _ hat htb
  simp [geminiCallJSON, hk, h2]

/-- Witness for `geminiCallJSON_unparseable_raw`: candidate text
`hello 42` (no object substring) yields the bad-JSON error carrying that
text. -/
theorem geminiCallJSON_unparseable_raw_witness :
    geminiCallJSON (some "apikey") [] 1 oracleNoJson =
      (.hardError "Bad/empty JSON from Gemini" (some "hello 42"), [.call]) := by
  exact geminiCallJSON_unparseable_raw (some "apikey") [] 1 200 oracleNoJson
    bodyNoJson "hello 42" (by decide) (by decide) rfl
    (by exact ⟨by decide, by decide⟩) rfl (by decide)

/-- Counterexample to claim C9 as stated: before expiry the cache serves
back the stored `detectByUrl` object, and the cache-hit response
`\x7bcached: true, ...cached\x7d` carries the `type` discriminator but no
`mode` field, while the same request served fresh does carry
`mode = "url"`. -/
theorem apiDetect_cached_mode_counterexample :
    getCache (setCache [] c9Key c9Out 600000) c9Key 1000 = some c9Out ∧
    objGet (handleUrlRequest (some c9Out) "https://example.com/" c9Out) "mode" = none ∧
    objGet (handleUrlRequest (some c9Out) "https://example.com/" c9Out) "type" =
      some (.jstr "link") ∧
    objGet (handleUrlRequest none "https://example.com/" c9Out) "mode" =
      some (.jstr "url") := by
  exact ⟨rfl, rfl, rfl, rfl⟩

/-- Claim C9, amended — every fresh `/api/detect` URL response carries
`mode = "url"` and a `type` discriminator in
image_url / video_url / link; the file and text branches carry their
`mode` too; a value served from the cache before expiry is exactly the
stored `detectByUrl` object, so the cache-hit response still carries the
`type` discriminator but — contrary to the unamended claim — no `mode`
field. -/
theorem apiDetect_mode_and_type (url : String) (ai : Json)
    (thumb : Option String) (sb : SBResult) (usig pst pct : Json)
    (rf : List String) (m : CacheMap) (k : String) (tExp now : Nat)
    (exif : Json) (hnow : ¬ now > tExp) :
    objGet (handleUrlRequest none url
        (detectByUrl url ai thumb sb usig pst pct rf)) "mode" =
      some (.jstr "url") ∧
    (∃ ty, objGet (handleUrlRequest none url
        (detectByUrl url ai thumb sb usig pst pct rf)) "type" =
        some (.jstr ty) ∧ (ty = "image_url" ∨ ty = "video_url" ∨ ty = "link")) ∧
    getCache (setCache m k (detectByUrl url ai thumb sb usig pst pct rf) tExp)
        k now = some (detectByUrl url ai thumb sb usig pst pct rf) ∧
    (∃ ty, objGet (handleUrlRequest
        (some (detectByUrl url ai thumb sb usig pst pct rf)) url
        (detectByUrl url ai thumb sb usig pst pct rf)) "type" =
        some (.jstr ty) ∧ (ty = "image_url" ∨ ty = "video_url" ∨ ty = "link")) ∧
    objGet (handleUrlRequest
        (some (detectByUrl url ai thumb sb usig pst pct rf)) url
        (detectByUrl url ai thumb sb usig pst pct rf)) "mode" = none ∧
    objGet (fileResponse ai exif) "mode" = some (.jstr "file") ∧
    objGet (textResponse ai) "mode" = some (.jstr "text") := by
  refine ⟨?_, ?_, ?_, ?_, ?_, ?_, ?_⟩
  · unfold detectByUrl
    split
    · simp [handleUrlRequest, objFields, objGet]
    · split
      · simp [handleUrlRequest, objFields, objGet]
      · simp [handleUrlRequest, objFields, objGet]
  · unfold detectByUrl
    split
    · exact ⟨"image_url", by simp [handleUrlRequest, objFields, objGet], Or.inl rfl⟩
    · split
      · exact ⟨"video_url", by simp [handleUrlRequest, objFields, objGet],
          Or.inr (Or.inl rfl)⟩
      · exact ⟨"link", by simp [handleUrlRequest, objFields, objGet],
          Or.inr (Or.inr rfl)⟩
  · simp [getCache, setCache, List.find?, hnow]
  · unfold detectByUrl
    split
    · exact ⟨"image_url", by simp [handleUrlRequest, objFields, objGet], Or.inl rfl⟩
    · split
      · exact ⟨"video_url", by simp [handleUrlRequest, objFields, objGet],
          Or.inr (Or.inl rfl)⟩
      · exact ⟨"link", by simp [handleUrlRequest, objFields, objGet],
          Or.inr (Or.inr rfl)⟩
  · unfold detectByUrl
    split
    · simp [handleUrlRequest, objFields, objGet]
    · split
      · simp [handleUrlRequest, objFields, objGet]
      · simp [handleUrlRequest, objFields, objGet]
  · simp [fileResponse, objGet]
  · simp [textResponse, objGet]

/-- Witness for `apiDetect_mode_and_type` at a concrete generic link and
an unexpired cache entry. -/
theorem apiDetect_mode_and_type_witness :
    objGet (handleUrlRequest none "https://example.com/" c9Out) "mode" =
      some (.jstr "url") ∧
    getCache (setCache [] c9Key c9Out 600000) c9Key 1000 = some c9Out ∧
    objGet (fileResponse aiFixture .jnull) "mode" = some (.jstr "file") := by
  have h := apiDetect_mode_and_type "https://example.com/" aiFixture none
    ⟨false, false⟩ .jnull .jnull .jnull [] [] c9Key 600000 1000 .jnull
    (by omega)
  exact ⟨h.1, h.2.2.1, h.2.2.2.2.2.1⟩
